import Mathlib

/-!
Verification of the PSK subsystem (`tls/s2n_psk.c`) of a TLS 1.3 handshake
endpoint: PSK entity lifecycle, per-connection PSK list management, binder
computation/verification, and the offered-PSK wire reader.

The C code is shallowly embedded: byte buffers (`struct s2n_blob`) become
`List Nat`, machine-integer arithmetic is `Nat` with explicit `% 2^32` where
the C computes modulo `2^32`, fallible functions return `Except S2nErr`.
External collaborators that live outside `tls/s2n_psk.c` (the safety macros,
the stuffer utility layer, the hash/HKDF primitives and the constant-time
comparison) are modelled from the specification, each marked in its doc
comment.
-/

/-- Error taxonomy of the PSK subsystem (spec section 7). `badMessage` is the
malformed-wire-data error, `outOfData` the empty-reader error. -/
inductive S2nErr
  | invalidArgument
  | invalidHmacAlgorithm
  | duplicatePskIdentities
  | offeredPsksTooLong
  | integerOverflow
  | sizeMismatch
  | badMessage
  | binderMismatch
  | outOfData
  deriving DecidableEq, Repr

/-- Decidable equality for `Except`, used to evaluate the embedded
functions at concrete inputs. -/
instance S2nExcept.decEq {e a : Type} [DecidableEq e] [DecidableEq a] :
    DecidableEq (Except e a) := fun x y =>
  match x, y with
  | .ok v, .ok w =>
      if h : v = w then .isTrue (by rw [h]) else .isFalse (by simp [h])
  | .error s, .error t =>
      if h : s = t then .isTrue (by rw [h]) else .isFalse (by simp [h])
  | .ok _, .error _ => .isFalse (by simp)
  | .error _, .ok _ => .isFalse (by simp)

/-- PSK kind: external or resumption (`s2n_psk_type`). -/
inductive s2n_psk_type
  | external
  | resumption
  deriving DecidableEq, Repr

/-- Connection mode (`S2N_CLIENT` / `S2N_SERVER`). The client is the side
offering PSKs. -/
inductive s2n_mode
  | client
  | server
  deriving DecidableEq, Repr

/-- Modelled from the spec: the supported HMAC algorithms of the PSK
subsystem are exactly SHA224, SHA256 and SHA384 (spec section 3); the wider
`s2n_hmac_algorithm` enumeration lives in the external crypto layer. -/
inductive s2n_hmac_algorithm
  | sha224
  | sha256
  | sha384
  deriving DecidableEq, Repr

/-- Modelled from the spec: `s2n_hmac_digest_size` (external crypto layer),
the digest size in bytes of each supported algorithm. -/
def s2n_hmac_digest_size : s2n_hmac_algorithm → Nat
  | .sha224 => 28
  | .sha256 => 32
  | .sha384 => 48

def UINT16_MAX : Nat := 65535

def UINT32_MAX : Nat := 4294967295

/-- Modelled from the spec: `s2n_add_overflow` (external safety layer);
overflow-checked `uint32` addition, failing with `IntegerOverflow`. -/
def s2n_add_overflow (a b : Nat) : Except S2nErr Nat :=
  if a + b ≤ UINT32_MAX then .ok (a + b) else .error .integerOverflow

/-- One pre-shared key (`struct s2n_psk`). Blobs are byte lists; the
early-data config is outside the claims and omitted. -/
structure s2n_psk where
  type : s2n_psk_type
  hmac_alg : s2n_hmac_algorithm
  identity : List Nat
  secret : List Nat
  early_secret : List Nat
  deriving DecidableEq, Repr

/-- Per-connection PSK parameters (`struct s2n_psk_parameters`); the psk
list is the growable array of PSK entities. -/
structure s2n_psk_parameters where
  psk_list : List s2n_psk
  deriving DecidableEq, Repr

/-- The connection state the PSK subsystem reads: the mode, the PSK
parameters, and the bytes already fed to the live handshake transcript hash
(empty unless the handshake included a HelloRetryRequest). -/
structure s2n_connection where
  mode : s2n_mode
  psk_params : s2n_psk_parameters
  transcript : List Nat
  deriving DecidableEq, Repr

/-- `s2n_psk_set_identity`. The caller's `(pointer, uint16 size)` pair is
`Option (List Nat)`: `none` is a null pointer, `some l` a buffer of
`l.length` bytes. The null check is the external `notnull_check` macro,
modelled from the spec as `InvalidArgument`; the empty check is
`ENSURE_POSIX(identity_size != 0, S2N_ERR_INVALID_ARGUMENT)` from the
source. The C `memcpy` into reallocated storage is a value copy here. -/
def s2n_psk_set_identity (psk : s2n_psk) (identity : Option (List Nat)) :
    Except S2nErr s2n_psk :=
  match identity with
  | none => .error .invalidArgument
  | some bytes =>
      if bytes.length = 0 then .error .invalidArgument
      else .ok { psk with identity := bytes }

/-- `s2n_psk_set_secret`, same shape as `s2n_psk_set_identity`. -/
def s2n_psk_set_secret (psk : s2n_psk) (secret : Option (List Nat)) :
    Except S2nErr s2n_psk :=
  match secret with
  | none => .error .invalidArgument
  | some bytes =>
      if bytes.length = 0 then .error .invalidArgument
      else .ok { psk with secret := bytes }

/-- `s2n_psk_clone`: copies every non-blob field of the original into the
destination, then reallocates the blobs through `s2n_psk_set_identity` and
`s2n_psk_set_secret` — which fail when the original's identity or secret
is empty or null — and copies the early secret. The documented
`clone(dst, null)` no-op takes a null original pointer and is outside this
value-level signature. -/
def s2n_psk_clone (new_psk original : s2n_psk) : Except S2nErr s2n_psk :=
  let copied : s2n_psk :=
    { type := original.type
      hmac_alg := original.hmac_alg
      identity := new_psk.identity
      secret := new_psk.secret
      early_secret := new_psk.early_secret }
  match s2n_psk_set_identity copied (some original.identity) with
  | .error e => .error e
  | .ok copied =>
      match s2n_psk_set_secret copied (some original.secret) with
      | .error e => .error e
      | .ok copied => .ok { copied with early_secret := original.early_secret }

/-- The zeroed C struct `(struct s2n_psk){ 0 }` that append clones into;
the clone overwrites every field it reads from the original, so the enum
components of the zero value never influence a result. -/
def s2n_psk_zeroed : s2n_psk :=
  { type := .resumption, hmac_alg := .sha256, identity := [], secret := [],
    early_secret := [] }

/-- `s2n_psk_offered_psk_size`: 2 (identity size) + 4 (obfuscated ticket
age) + 1 (binder size), then overflow-checked additions of the identity
length and the binder (digest) size. -/
def s2n_psk_offered_psk_size (psk : s2n_psk) : Except S2nErr Nat :=
  match s2n_add_overflow (2 + 4 + 1) psk.identity.length with
  | .error e => .error e
  | .ok size =>
      match s2n_add_overflow size (s2n_hmac_digest_size psk.hmac_alg) with
      | .error e => .error e
      | .ok size => .ok size

/-- Accumulating loop of `s2n_psk_parameters_offered_psks_size` over the
psk list, propagating errors as the C `GUARD` chain does. -/
def s2n_offered_psks_size_loop : Nat → List s2n_psk → Except S2nErr Nat
  | acc, [] => .ok acc
  | acc, psk :: rest =>
      match s2n_psk_offered_psk_size psk with
      | .error e => .error e
      | .ok psk_size =>
          match s2n_add_overflow acc psk_size with
          | .error e => .error e
          | .ok acc => s2n_offered_psks_size_loop acc rest

/-- `s2n_psk_parameters_offered_psks_size`: 2 (identity list size) + 2
(binder list size) plus the overflow-checked sum of the per-entry sizes. -/
def s2n_psk_parameters_offered_psks_size (params : s2n_psk_parameters) :
    Except S2nErr Nat :=
  s2n_offered_psks_size_loop (2 + 2) params.psk_list

/-- Modelled from the spec: `S2N_EXTENSION_HEADER_LENGTH` (external
extension layer), the fixed extension header: 2-byte type plus 2-byte
length. -/
def S2N_EXTENSION_HEADER_LENGTH : Nat := 4

/-- `s2n_connection_append_psk`. Scans for a duplicate identity (size
equality plus `memcmp`, i.e. byte-list equality); on a client connection
checks that the prospective serialized extension fits in `uint16` (the C
comparison `list_size + psk_size + S2N_EXTENSION_HEADER_LENGTH <=
UINT16_MAX` is computed in `uint32` arithmetic, hence the `% 2^32`); then
clones the input PSK into a zeroed struct — `ENSURE_POSIX` collapses any
clone failure, such as an empty identity or secret, into
`InvalidArgument` — and appends the clone. Returns the result together
with the (possibly updated) connection. -/
def s2n_connection_append_psk (conn : s2n_connection) (input_psk : s2n_psk) :
    Except S2nErr Unit × s2n_connection :=
  let psk_list := conn.psk_params.psk_list
  if psk_list.any (fun existing_psk =>
      existing_psk.identity.length == input_psk.identity.length
        && existing_psk.identity == input_psk.identity) then
    (.error .duplicatePskIdentities, conn)
  else
    let clone_and_append : Except S2nErr Unit × s2n_connection :=
      match s2n_psk_clone s2n_psk_zeroed input_psk with
      | .error _ => (.error .invalidArgument, conn)
      | .ok new_psk =>
          (.ok (), { conn with psk_params :=
              { psk_list := psk_list ++ [new_psk] } })
    if conn.mode = .client then
      match s2n_psk_parameters_offered_psks_size conn.psk_params with
      | .error e => (.error e, conn)
      | .ok list_size =>
          match s2n_psk_offered_psk_size input_psk with
          | .error e => (.error e, conn)
          | .ok psk_size =>
              if (list_size + psk_size + S2N_EXTENSION_HEADER_LENGTH)
                  % (UINT32_MAX + 1) ≤ UINT16_MAX then
                clone_and_append
              else
                (.error .offeredPsksTooLong, conn)
    else
      clone_and_append

/-- Closed-form per-entry size from spec section 4.2: 2 (identity length)
+ identity.len + 4 (obfuscated ticket age) + 1 (binder length) + digest
size of the entry's HMAC algorithm. -/
def offered_psk_size_spec (psk : s2n_psk) : Nat :=
  2 + psk.identity.length + 4 + 1 + s2n_hmac_digest_size psk.hmac_alg

/-- Closed-form total size from spec section 4.2: 2 + 2 + the sum of the
per-entry sizes. -/
def offered_psks_size_spec (params : s2n_psk_parameters) : Nat :=
  2 + 2 + (params.psk_list.map offered_psk_size_spec).sum

/-- Modelled from the spec: the call contract of the external hash and TLS
1.3 key-schedule primitives (spec sections 4.3 and 4.4): the transcript
hash, the extraction of the early secret from the PSK secret, the binder
key derivation (whose label depends on the PSK kind), the finished-key
expansion, and the final HMAC (`s2n_hkdf_extract`). Each is an arbitrary
deterministic function; theorems that need it assume the digest-length
contract as a hypothesis. -/
structure tls13_crypto where
  hash : s2n_hmac_algorithm → List Nat → List Nat
  extract_early : s2n_hmac_algorithm → List Nat → List Nat
  derive_binder_key : s2n_hmac_algorithm → s2n_psk_type → List Nat → List Nat
  derive_finished_key : s2n_hmac_algorithm → List Nat → List Nat
  hkdf_extract : s2n_hmac_algorithm → List Nat → List Nat → List Nat

/-- Digest-length contract of the external primitives: the transcript hash
and the HMAC each produce exactly the digest size of their algorithm. -/
def tls13_crypto.good (x : tls13_crypto) : Prop :=
  (∀ alg msg, (x.hash alg msg).length = s2n_hmac_digest_size alg) ∧
  (∀ alg key msg, (x.hkdf_extract alg key msg).length = s2n_hmac_digest_size alg)

/-- Modelled from the spec: the xor-accumulate loop of the external
constant-time equality routine; it never exits early, folding the or of
the byte-wise xors over the whole (common) length. -/
def s2n_constant_time_xor_fold : List Nat → List Nat → Nat → Nat
  | a :: as, b :: bs, acc => s2n_constant_time_xor_fold as bs (acc ||| (a ^^^ b))
  | _, _, acc => acc

/-- Modelled from the spec: the constant-time equality used by the binder
comparison. Equal iff the lengths match and the xor-accumulator is zero. -/
def s2n_constant_time_equals (a b : List Nat) : Bool :=
  a.length == b.length && s2n_constant_time_xor_fold a b 0 == 0

/-- Cost model of the comparison: the number of byte comparisons the
xor-accumulate loop executes (one per position of the common length). -/
def s2n_constant_time_equals_cost : List Nat → List Nat → Nat
  | _ :: as, _ :: bs => s2n_constant_time_equals_cost as bs + 1
  | _, _ => 0

/-- Modelled from the spec: `s2n_tls13_mac_verify` (external key-schedule
layer): compares the expected and candidate binders with the constant-time
routine, any mismatch failing with `BadMessage` (the spec's `BadMessage` /
`BinderMismatch`). -/
def s2n_tls13_mac_verify (expected candidate : List Nat) : Except S2nErr Unit :=
  if s2n_constant_time_equals expected candidate then .ok () else .error .badMessage

/-- `s2n_psk_calculate_binder_hash`: duplicates the live transcript hash
state for the algorithm, feeds it the so-far-serialized ClientHello bytes
(`hello`, the C `partial_client_hello`), and finalizes into an output
buffer of size `output_size`; a wrong-sized output buffer fails the
external digest's size guard, modelled from the spec as `SizeMismatch`. -/
def s2n_psk_calculate_binder_hash (x : tls13_crypto) (conn : s2n_connection)
    (hmac_alg : s2n_hmac_algorithm) (hello : List Nat) (output_size : Nat) :
    Except S2nErr (List Nat) :=
  if output_size = s2n_hmac_digest_size hmac_alg then
    .ok (x.hash hmac_alg (conn.transcript ++ hello))
  else .error .sizeMismatch

/-- `s2n_psk_calculate_binder`: checks (`eq_check`, modelled from the spec
as `SizeMismatch`) that the binder hash and the output buffer are exactly
the digest size `N`; ensures the early secret is cached on the PSK at
length `N` (reusing a cached value, spec section 4.4 step 2); derives the
binder key (label per PSK kind) and the finished key; returns the HMAC of
the binder hash under the finished key, with the updated PSK. -/
def s2n_psk_calculate_binder (x : tls13_crypto) (psk : s2n_psk)
    (binder_hash : List Nat) (output_size : Nat) :
    Except S2nErr (List Nat × s2n_psk) :=
  let n := s2n_hmac_digest_size psk.hmac_alg
  if binder_hash.length = n then
    if output_size = n then
      let early_secret :=
        if psk.early_secret.length = n then psk.early_secret
        else x.extract_early psk.hmac_alg psk.secret
      let binder_key := x.derive_binder_key psk.hmac_alg psk.type early_secret
      let finished_key := x.derive_finished_key psk.hmac_alg binder_key
      .ok (x.hkdf_extract psk.hmac_alg finished_key binder_hash,
        { psk with early_secret := early_secret })
    else .error .sizeMismatch
  else .error .sizeMismatch

/-- `s2n_psk_verify_binder`: checks (`eq_check`, modelled from the spec as
`SizeMismatch`) that the candidate binder has the digest size, recomputes
the binder hash and the expected binder from the live connection state,
then compares with the constant-time routine (`s2n_tls13_mac_verify`). The
in-place early-secret caching on the PSK is internal and not returned,
matching the C signature. -/
def s2n_psk_verify_binder (x : tls13_crypto) (conn : s2n_connection)
    (psk : s2n_psk) (hello : List Nat) (binder_to_verify : List Nat) :
    Except S2nErr Unit :=
  let n := s2n_hmac_digest_size psk.hmac_alg
  if binder_to_verify.length = n then
    match s2n_psk_calculate_binder_hash x conn psk.hmac_alg hello n with
    | .error e => .error e
    | .ok binder_hash =>
        match s2n_psk_calculate_binder x psk binder_hash n with
        | .error e => .error e
        | .ok (expected_binder, _) =>
            s2n_tls13_mac_verify expected_binder binder_to_verify
  else .error .sizeMismatch

/-- Flips bit `i % 8` of byte `i / 8` of a byte list (identity outside the
list's range). -/
def flip_byte_bit (l : List Nat) (i : Nat) : List Nat :=
  l.set (i / 8) ((l.getD (i / 8) 0) ^^^ (1 <<< (i % 8)))

/-- Modelled from the spec: the read-only byte cursor (`struct s2n_stuffer`)
of the external stuffer utility layer, restricted to what the reader uses:
a backing byte buffer, a read cursor and a write cursor delimiting the
readable region. -/
structure s2n_stuffer where
  blob : List Nat
  read_cursor : Nat
  write_cursor : Nat
  deriving DecidableEq, Repr

/-- Bytes remaining between the read and write cursors
(`s2n_stuffer_data_available`). -/
def s2n_stuffer_data_available (s : s2n_stuffer) : Nat :=
  s.write_cursor - s.read_cursor

/-- Modelled from the spec: `s2n_stuffer_read_uint16`, a big-endian 2-byte
read advancing the cursor; fails if fewer than 2 bytes remain. -/
def s2n_stuffer_read_uint16 (s : s2n_stuffer) : Option (Nat × s2n_stuffer) :=
  if 2 ≤ s2n_stuffer_data_available s then
    some (256 * s.blob.getD s.read_cursor 0 + s.blob.getD (s.read_cursor + 1) 0,
      { s with read_cursor := s.read_cursor + 2 })
  else none

/-- Modelled from the spec: `s2n_stuffer_raw_read`, borrowing `n` bytes at
the cursor (no copy) and advancing; returns null (`none`) if fewer than
`n` bytes remain. -/
def s2n_stuffer_raw_read (s : s2n_stuffer) (n : Nat) :
    Option (List Nat × s2n_stuffer) :=
  if n ≤ s2n_stuffer_data_available s then
    some ((s.blob.drop s.read_cursor).take n,
      { s with read_cursor := s.read_cursor + n })
  else none

/-- Modelled from the spec: `s2n_stuffer_skip_read`, advancing the cursor
past `n` bytes; fails if fewer than `n` bytes remain. -/
def s2n_stuffer_skip_read (s : s2n_stuffer) (n : Nat) : Option s2n_stuffer :=
  if n ≤ s2n_stuffer_data_available s then
    some { s with read_cursor := s.read_cursor + n }
  else none

/-- Modelled from the spec: `s2n_stuffer_reread` rewinds the read cursor to
the start of the region. -/
def s2n_stuffer_reread (s : s2n_stuffer) : s2n_stuffer :=
  { s with read_cursor := 0 }

/-- Reader-side view of one offered PSK (`struct s2n_offered_psk`): a
borrowed byte range into the wire buffer. The all-zero C struct (null
identity pointer, zero size) is the empty list. -/
structure s2n_offered_psk where
  identity : List Nat
  deriving DecidableEq, Repr

/-- The cursor over the identity-list wire region
(`struct s2n_offered_psk_list`). -/
structure s2n_offered_psk_list where
  wire_data : s2n_stuffer
  deriving DecidableEq, Repr

/-- `s2n_offered_psk_list_has_next`: bytes remain before the write cursor. -/
def s2n_offered_psk_list_has_next (psk_list : s2n_offered_psk_list) : Bool :=
  0 < s2n_stuffer_data_available psk_list.wire_data

/-- `s2n_offered_psk_list_read_next`: reads the 2-byte identity length,
requires it positive (`ENSURE_GT`), borrows that many identity bytes, and
skips the 4-byte obfuscated ticket age without validating it. Returns the
success flag, the advanced cursor (a failing step keeps the cursor where
the last successful step left it, as in C), and the output view, which is
only written on full success. -/
def s2n_offered_psk_list_read_next (psk_list : s2n_offered_psk_list)
    (psk : s2n_offered_psk) :
    Bool × s2n_offered_psk_list × s2n_offered_psk :=
  match s2n_stuffer_read_uint16 psk_list.wire_data with
  | none => (false, psk_list, psk)
  | some (identity_size, st) =>
      if identity_size = 0 then (false, { wire_data := st }, psk)
      else
        match s2n_stuffer_raw_read st identity_size with
        | none => (false, { wire_data := st }, psk)
        | some (identity_data, st) =>
            match s2n_stuffer_skip_read st 4 with
            | none => (false, { wire_data := st }, psk)
            | some st =>
                (true, { wire_data := st }, { identity := identity_data })

/-- `s2n_offered_psk_list_next`: zeroes the output view, fails with
`OutOfData` when no bytes remain, otherwise runs `read_next` and collapses
any of its failures into `BadMessage`. -/
def s2n_offered_psk_list_next (psk_list : s2n_offered_psk_list)
    (psk : s2n_offered_psk) :
    Except S2nErr Unit × s2n_offered_psk_list × s2n_offered_psk :=
  let psk0 : s2n_offered_psk := { identity := [] }
  if s2n_offered_psk_list_has_next psk_list then
    match s2n_offered_psk_list_read_next psk_list psk0 with
    | (true, psk_list, psk_out) => (.ok (), psk_list, psk_out)
    | (false, psk_list, psk_out) => (.error .badMessage, psk_list, psk_out)
  else
    (.error .outOfData, psk_list, psk0)

/-- `s2n_offered_psk_list_reset`: rewinds the cursor to the start of the
identity-list region. -/
def s2n_offered_psk_list_reset (psk_list : s2n_offered_psk_list) :
    s2n_offered_psk_list :=
  { wire_data := s2n_stuffer_reread psk_list.wire_data }

/-- The `while (count <= psk_index)` loop of
`s2n_offered_psk_list_get_index`: `fuel` remaining `next` calls, stopping
at the first failure with whatever the failing `next` left behind. -/
def s2n_offered_psk_list_next_loop :
    Nat → s2n_offered_psk_list → s2n_offered_psk →
    Except S2nErr Unit × s2n_offered_psk_list × s2n_offered_psk
  | 0, psk_list, psk => (.ok (), psk_list, psk)
  | fuel + 1, psk_list, psk =>
      match s2n_offered_psk_list_next psk_list psk with
      | (.ok (), psk_list, psk) => s2n_offered_psk_list_next_loop fuel psk_list psk
      | failure => failure

/-- `s2n_offered_psk_list_get_index`: copies the cursor (so the caller's
position is untouched), resets the copy, and calls `next` `psk_index + 1`
times, returning the last view. -/
def s2n_offered_psk_list_get_index (psk_list : s2n_offered_psk_list)
    (psk_index : Nat) (psk : s2n_offered_psk) :
    Except S2nErr Unit × s2n_offered_psk_list × s2n_offered_psk :=
  let psk_list_copy : s2n_offered_psk_list := { wire_data := psk_list.wire_data }
  let r := s2n_offered_psk_list_next_loop (psk_index + 1)
    (s2n_offered_psk_list_reset psk_list_copy) psk
  (r.1, psk_list, r.2.2)

theorem nat_or_eq_zero (a b : Nat) (h : a ||| b = 0) : a = 0 ∧ b = 0 := by
  have hbit : ∀ i, a.testBit i = false ∧ b.testBit i = false := by
    intro i
    have h2 := congrArg (fun n => n.testBit i) h
    simp only [Nat.testBit_or, Nat.zero_testBit, Bool.or_eq_false_iff] at h2
    exact h2
  constructor
  · apply Nat.eq_of_testBit_eq
    intro i
    simp [(hbit i).1]
  · apply Nat.eq_of_testBit_eq
    intro i
    simp [(hbit i).2]

theorem s2n_constant_time_xor_fold_acc (a : List Nat) :
    ∀ (b : List Nat) (acc : Nat),
      s2n_constant_time_xor_fold a b acc = acc ||| s2n_constant_time_xor_fold a b 0 := by
  induction a with
  | nil => intro b acc; cases b <;> simp [s2n_constant_time_xor_fold]
  | cons x xs ih =>
      intro b acc
      cases b with
      | nil => simp [s2n_constant_time_xor_fold]
      | cons y ys =>
          rw [s2n_constant_time_xor_fold, s2n_constant_time_xor_fold, ih _ (acc ||| (x ^^^ y)),
            ih _ (0 ||| (x ^^^ y))]
          simp [Nat.or_assoc]

theorem s2n_constant_time_xor_fold_zero_iff (a : List Nat) :
    ∀ b : List Nat, a.length = b.length →
      (s2n_constant_time_xor_fold a b 0 = 0 ↔ a = b) := by
  induction a with
  | nil =>
      intro b hlen
      cases b with
      | nil => simp [s2n_constant_time_xor_fold]
      | cons y ys => simp at hlen
  | cons x xs ih =>
      intro b hlen
      cases b with
      | nil => simp at hlen
      | cons y ys =>
          rw [s2n_constant_time_xor_fold, s2n_constant_time_xor_fold_acc]
          simp only [Nat.zero_or, List.length_cons] at *
          constructor
          · intro h
            have hor := nat_or_eq_zero _ _ h
            have hx : x = y := Nat.xor_eq_zero.mp hor.1
            have hxs : xs = ys := (ih ys (by omega)).mp hor.2
            simp [hx, hxs]
          · intro h
            injection h with h1 h2
            rw [h1, Nat.xor_self, Nat.zero_or]
            exact (ih ys (by omega)).mpr h2

theorem s2n_constant_time_equals_iff (a b : List Nat) :
    s2n_constant_time_equals a b = true ↔ a = b := by
  unfold s2n_constant_time_equals
  simp only [Bool.and_eq_true, beq_iff_eq]
  constructor
  · rintro ⟨hlen, hfold⟩
    exact (s2n_constant_time_xor_fold_zero_iff a b hlen).mp hfold
  · rintro rfl
    exact ⟨rfl, (s2n_constant_time_xor_fold_zero_iff a a rfl).mpr rfl⟩

theorem s2n_constant_time_equals_cost_eq (a : List Nat) :
    ∀ b : List Nat, s2n_constant_time_equals_cost a b = min a.length b.length := by
  induction a with
  | nil => intro b; cases b <;> simp [s2n_constant_time_equals_cost]
  | cons x xs ih =>
      intro b
      cases b with
      | nil => simp [s2n_constant_time_equals_cost]
      | cons y ys =>
          rw [s2n_constant_time_equals_cost, ih ys]
          simp [Nat.succ_min_succ]

theorem s2n_psk_offered_psk_size_eq (psk : s2n_psk) :
    s2n_psk_offered_psk_size psk =
      if offered_psk_size_spec psk ≤ UINT32_MAX then
        Except.ok (offered_psk_size_spec psk)
      else Except.error S2nErr.integerOverflow := by
  unfold s2n_psk_offered_psk_size s2n_add_overflow offered_psk_size_spec
  by_cases h1 : 2 + 4 + 1 + psk.identity.length ≤ UINT32_MAX
  · by_cases h2 :
        2 + 4 + 1 + psk.identity.length + s2n_hmac_digest_size psk.hmac_alg ≤ UINT32_MAX
    · simp only [if_pos h1, if_pos h2,
        if_pos (show 2 + psk.identity.length + 4 + 1 + s2n_hmac_digest_size psk.hmac_alg ≤
          UINT32_MAX by omega), Except.ok.injEq]
      omega
    · simp only [if_pos h1, if_neg h2,
        if_neg (show ¬(2 + psk.identity.length + 4 + 1 + s2n_hmac_digest_size psk.hmac_alg ≤
          UINT32_MAX) by omega)]
  · simp only [if_neg h1,
      if_neg (show ¬(2 + psk.identity.length + 4 + 1 + s2n_hmac_digest_size psk.hmac_alg ≤
        UINT32_MAX) by omega)]

theorem s2n_offered_psks_size_loop_eq (l : List s2n_psk) :
    ∀ acc : Nat, acc ≤ UINT32_MAX →
      s2n_offered_psks_size_loop acc l =
        if acc + (l.map offered_psk_size_spec).sum ≤ UINT32_MAX then
          Except.ok (acc + (l.map offered_psk_size_spec).sum)
        else Except.error S2nErr.integerOverflow := by
  induction l with
  | nil =>
      intro acc hacc
      simp [s2n_offered_psks_size_loop, hacc]
  | cons p rest ih =>
      intro acc hacc
      simp only [s2n_offered_psks_size_loop, s2n_psk_offered_psk_size_eq,
        List.map_cons, List.sum_cons]
      by_cases hp : offered_psk_size_spec p ≤ UINT32_MAX
      · simp only [if_pos hp]
        unfold s2n_add_overflow
        by_cases ha : acc + offered_psk_size_spec p ≤ UINT32_MAX
        · simp only [if_pos ha, ih _ ha]
          by_cases hrest :
              acc + offered_psk_size_spec p + (rest.map offered_psk_size_spec).sum ≤ UINT32_MAX
          · simp only [if_pos hrest, if_pos (show acc + (offered_psk_size_spec p +
              (rest.map offered_psk_size_spec).sum) ≤ UINT32_MAX by omega), Except.ok.injEq]
            omega
          · simp only [if_neg hrest, if_neg (show ¬(acc + (offered_psk_size_spec p +
              (rest.map offered_psk_size_spec).sum) ≤ UINT32_MAX) by omega)]
        · simp only [if_neg ha, if_neg (show ¬(acc + (offered_psk_size_spec p +
            (rest.map offered_psk_size_spec).sum) ≤ UINT32_MAX) by omega)]
      · simp only [if_neg hp, if_neg (show ¬(acc + (offered_psk_size_spec p +
          (rest.map offered_psk_size_spec).sum) ≤ UINT32_MAX) by omega)]

/-- C4: for every PSK list with known identity sizes and supported HMAC
algorithms, `s2n_psk_parameters_offered_psks_size` returns exactly
2 + 2 + Σ over entries of (2 + identity length + 4 + 1 + digest size of
the entry\'s HMAC algorithm); every addition is overflow-checked and an
overflow fails with `IntegerOverflow`. -/
theorem s2n_psk_parameters_offered_psks_size_closed_form
    (params : s2n_psk_parameters) :
    s2n_psk_parameters_offered_psks_size params =
      if offered_psks_size_spec params ≤ UINT32_MAX then
        Except.ok (offered_psks_size_spec params)
      else Except.error S2nErr.integerOverflow := by
  unfold s2n_psk_parameters_offered_psks_size offered_psks_size_spec
  rw [s2n_offered_psks_size_loop_eq _ (2 + 2) (by norm_num [UINT32_MAX])]

theorem s2n_psk_parameters_offered_psks_size_ok (params : s2n_psk_parameters)
    (h : offered_psks_size_spec params ≤ UINT32_MAX) :
    s2n_psk_parameters_offered_psks_size params =
      Except.ok (offered_psks_size_spec params) := by
  unfold s2n_psk_parameters_offered_psks_size
  rw [s2n_offered_psks_size_loop_eq _ (2 + 2) (by norm_num [UINT32_MAX])]
  unfold offered_psks_size_spec at h ⊢
  rw [if_pos h]

theorem s2n_psk_offered_psk_size_ok (psk : s2n_psk)
    (h : offered_psk_size_spec psk ≤ UINT32_MAX) :
    s2n_psk_offered_psk_size psk = Except.ok (offered_psk_size_spec psk) := by
  rw [s2n_psk_offered_psk_size_eq, if_pos h]

theorem s2n_psk_clone_ok (new_psk original : s2n_psk)
    (hid : original.identity ≠ []) (hsec : original.secret ≠ []) :
    s2n_psk_clone new_psk original = .ok original := by
  unfold s2n_psk_clone s2n_psk_set_identity s2n_psk_set_secret
  dsimp only
  rw [if_neg (by simpa using hid)]
  dsimp only
  rw [if_neg (by simpa using hsec)]

theorem s2n_psk_clone_empty (new_psk original : s2n_psk)
    (h : original.identity = [] ∨ original.secret = []) :
    s2n_psk_clone new_psk original = .error .invalidArgument := by
  unfold s2n_psk_clone s2n_psk_set_identity s2n_psk_set_secret
  dsimp only
  rcases h with h | h
  · rw [if_pos (by simp [h])]
  · by_cases hidz : original.identity.length = 0
    · rw [if_pos hidz]
    · rw [if_neg hidz]
      dsimp only
      rw [if_pos (by simp [h])]

/-- C3: appending a PSK whose identity byte-equals the identity of an
existing entry fails with `DuplicatePskIdentity`; on this and every other
failure path — size-guard errors and the clone-validation failure for an
empty identity or secret included — the connection (in particular its PSK
list) is unchanged. -/
theorem s2n_connection_append_psk_duplicate_atomic (conn : s2n_connection)
    (input_psk : s2n_psk) :
    ((∃ e ∈ conn.psk_params.psk_list, e.identity = input_psk.identity) →
      s2n_connection_append_psk conn input_psk =
        (.error .duplicatePskIdentities, conn)) ∧
    (∀ err : S2nErr, (s2n_connection_append_psk conn input_psk).1 = .error err →
      (s2n_connection_append_psk conn input_psk).2 = conn) ∧
    (conn.mode = .server →
      (∀ e ∈ conn.psk_params.psk_list, e.identity ≠ input_psk.identity) →
      input_psk.identity = [] ∨ input_psk.secret = [] →
      s2n_connection_append_psk conn input_psk =
        (.error .invalidArgument, conn)) := by
  refine ⟨?_, ?_, ?_⟩
  · rintro ⟨e, he, hid⟩
    unfold s2n_connection_append_psk
    rw [if_pos]
    simp only [List.any_eq_true, Bool.and_eq_true, beq_iff_eq]
    exact ⟨e, he, by simp [hid]⟩
  · intro err
    unfold s2n_connection_append_psk
    by_cases hdup : (conn.psk_params.psk_list.any fun existing_psk =>
        existing_psk.identity.length == input_psk.identity.length
          && existing_psk.identity == input_psk.identity) = true
    · rw [if_pos hdup]
      intro _
      rfl
    · rw [if_neg hdup]
      dsimp only
      by_cases hmode : conn.mode = s2n_mode.client
      · rw [if_pos hmode]
        cases hsz : s2n_psk_parameters_offered_psks_size conn.psk_params with
        | error e =>
            intro _
            rfl
        | ok list_size =>
            cases hsz2 : s2n_psk_offered_psk_size input_psk with
            | error e =>
                intro _
                rfl
            | ok psk_size =>
                dsimp only
                by_cases hle : (list_size + psk_size + S2N_EXTENSION_HEADER_LENGTH)
                    % (UINT32_MAX + 1) ≤ UINT16_MAX
                · rw [if_pos hle]
                  cases hcl : s2n_psk_clone s2n_psk_zeroed input_psk with
                  | error e =>
                      intro _
                      rfl
                  | ok new_psk =>
                      intro hcontr
                      exact absurd hcontr (by simp)
                · rw [if_neg hle]
                  intro _
                  rfl
      · rw [if_neg hmode]
        cases hcl : s2n_psk_clone s2n_psk_zeroed input_psk with
        | error e =>
            intro _
            rfl
        | ok new_psk =>
            intro hcontr
            exact absurd hcontr (by simp)
  · intro hmode hdup hempty
    have hany : (conn.psk_params.psk_list.any fun existing_psk =>
        existing_psk.identity.length == input_psk.identity.length
          && existing_psk.identity == input_psk.identity) = false := by
      simp only [List.any_eq_false, Bool.and_eq_true, beq_iff_eq, not_and]
      intro e he _
      exact hdup e he
    unfold s2n_connection_append_psk
    dsimp only
    rw [hany, if_neg (by simp), if_neg (by rw [hmode]; simp),
      s2n_psk_clone_empty _ _ hempty]

/-- C5: on a client (offering) connection, append fails with
`OfferedPsksTooLong` exactly when the prospective serialized size — the
current offered size plus the new entry's size plus the fixed
extension-header length — exceeds 65535 bytes; a server (non-offering)
connection is not subject to the limit and the same append succeeds. The
input PSK's identity and secret are assumed non-empty (the spec section 3
invariant for a usable PSK); an empty one fails the clone validation with
`InvalidArgument` instead. The `hfit` hypothesis keeps the client-side
comparison, which the C computes in `uint32` arithmetic, below the `2^32`
wrap-around; it holds on every client list the append API itself can
build. -/
theorem s2n_connection_append_psk_size_guard (conn : s2n_connection)
    (input_psk : s2n_psk)
    (hdup : ∀ e ∈ conn.psk_params.psk_list, e.identity ≠ input_psk.identity)
    (hid : input_psk.identity ≠ []) (hsec : input_psk.secret ≠ []) :
    (conn.mode = .server →
      s2n_connection_append_psk conn input_psk =
        (.ok (), { conn with psk_params :=
          { psk_list := conn.psk_params.psk_list ++ [input_psk] } })) ∧
    (conn.mode = .client →
      offered_psks_size_spec conn.psk_params + offered_psk_size_spec input_psk +
          S2N_EXTENSION_HEADER_LENGTH ≤ UINT32_MAX →
      ((s2n_connection_append_psk conn input_psk).1 =
          .error .offeredPsksTooLong ↔
        UINT16_MAX < offered_psks_size_spec conn.psk_params +
          offered_psk_size_spec input_psk + S2N_EXTENSION_HEADER_LENGTH) ∧
      (offered_psks_size_spec conn.psk_params + offered_psk_size_spec input_psk +
          S2N_EXTENSION_HEADER_LENGTH ≤ UINT16_MAX →
        s2n_connection_append_psk conn input_psk =
          (.ok (), { conn with psk_params :=
            { psk_list := conn.psk_params.psk_list ++ [input_psk] } }))) := by
  have hany : (conn.psk_params.psk_list.any fun existing_psk =>
      existing_psk.identity.length == input_psk.identity.length
        && existing_psk.identity == input_psk.identity) = false := by
    simp only [List.any_eq_false, Bool.and_eq_true, beq_iff_eq, not_and]
    intro e he _
    exact hdup e he
  constructor
  · intro hmode
    unfold s2n_connection_append_psk
    dsimp only
    rw [hany, if_neg (by simp), if_neg (by rw [hmode]; simp),
      s2n_psk_clone_ok _ _ hid hsec]
  · intro hmode hfit
    have h1 : offered_psks_size_spec conn.psk_params ≤ UINT32_MAX := by omega
    have h2 : offered_psk_size_spec input_psk ≤ UINT32_MAX := by omega
    have hmod : (offered_psks_size_spec conn.psk_params +
        offered_psk_size_spec input_psk + S2N_EXTENSION_HEADER_LENGTH)
          % (UINT32_MAX + 1) =
        offered_psks_size_spec conn.psk_params + offered_psk_size_spec input_psk +
          S2N_EXTENSION_HEADER_LENGTH :=
      Nat.mod_eq_of_lt (by omega)
    have hexp : s2n_connection_append_psk conn input_psk =
        if offered_psks_size_spec conn.psk_params + offered_psk_size_spec input_psk +
            S2N_EXTENSION_HEADER_LENGTH ≤ UINT16_MAX then
          (.ok (), { conn with psk_params :=
            { psk_list := conn.psk_params.psk_list ++ [input_psk] } })
        else (.error .offeredPsksTooLong, conn) := by
      unfold s2n_connection_append_psk
      dsimp only
      rw [hany, if_neg (by simp), if_pos hmode,
        s2n_psk_parameters_offered_psks_size_ok _ h1, s2n_psk_offered_psk_size_ok _ h2]
      dsimp only
      rw [hmod, s2n_psk_clone_ok _ _ hid hsec]
    constructor
    · rw [hexp]
      by_cases hle : offered_psks_size_spec conn.psk_params +
          offered_psk_size_spec input_psk + S2N_EXTENSION_HEADER_LENGTH ≤ UINT16_MAX
      · rw [if_pos hle]
        constructor
        · intro hcontr
          exact absurd hcontr (by simp)
        · intro hgt
          omega
      · rw [if_neg hle]
        constructor
        · intro _
          omega
        · intro _
          rfl
    · intro hle
      rw [hexp, if_pos hle]

/-- Concrete external PSK used by witnesses. -/
def psk_a : s2n_psk :=
  { type := .external, hmac_alg := .sha256, identity := [1], secret := [2],
    early_secret := [] }

/-- Concrete second PSK (distinct identity) used by witnesses. -/
def psk_b : s2n_psk :=
  { type := .resumption, hmac_alg := .sha384, identity := [3, 4], secret := [5],
    early_secret := [] }

/-- PSK with an empty identity and secret, used by witnesses for the
clone-validation failure path. -/
def psk_empty : s2n_psk :=
  { type := .external, hmac_alg := .sha256, identity := [], secret := [],
    early_secret := [] }

/-- Server connection already holding `psk_a`, used by witnesses. -/
def conn_dup : s2n_connection :=
  { mode := .server, psk_params := { psk_list := [psk_a] }, transcript := [] }

/-- Empty server connection used by witnesses. -/
def conn_srv : s2n_connection :=
  { mode := .server, psk_params := { psk_list := [] }, transcript := [] }

/-- Empty client connection used by witnesses. -/
def conn_cli : s2n_connection :=
  { mode := .client, psk_params := { psk_list := [] }, transcript := [] }

/-- Witness for C3 at concrete connections: appending `psk_a` onto a list
already holding `psk_a` fails with `DuplicatePskIdentity` and leaves the
connection unchanged, and appending a PSK with an empty identity fails
the clone validation with `InvalidArgument`, also leaving it unchanged. -/
theorem s2n_connection_append_psk_duplicate_atomic_witness :
    s2n_connection_append_psk conn_dup psk_a =
      (.error .duplicatePskIdentities, conn_dup) ∧
    (s2n_connection_append_psk conn_dup psk_a).2 = conn_dup ∧
    s2n_connection_append_psk conn_srv psk_empty =
      (.error .invalidArgument, conn_srv) := by
  have h := s2n_connection_append_psk_duplicate_atomic conn_dup psk_a
  have h1 := h.1 ⟨psk_a, List.mem_cons_self psk_a [], rfl⟩
  have h2 := (s2n_connection_append_psk_duplicate_atomic conn_srv psk_empty).2.2
    rfl (by intro e he; simp [conn_srv] at he) (Or.inl rfl)
  exact ⟨h1, h.2.1 S2nErr.duplicatePskIdentities (by rw [h1]), h2⟩

/-- Witness for C5 at concrete connections: the same small append succeeds
on a server connection and on a client connection whose prospective size
is far below 65535. -/
theorem s2n_connection_append_psk_size_guard_witness :
    s2n_connection_append_psk conn_srv psk_b =
      (.ok (), { conn_srv with psk_params :=
        { psk_list := conn_srv.psk_params.psk_list ++ [psk_b] } }) ∧
    s2n_connection_append_psk conn_cli psk_b =
      (.ok (), { conn_cli with psk_params :=
        { psk_list := conn_cli.psk_params.psk_list ++ [psk_b] } }) := by
  have hs := s2n_connection_append_psk_size_guard conn_srv psk_b
    (by intro e he _; simp [conn_srv] at he) (by decide) (by decide)
  have hc := s2n_connection_append_psk_size_guard conn_cli psk_b
    (by intro e he _; simp [conn_cli] at he) (by decide) (by decide)
  refine ⟨hs.1 rfl, ?_⟩
  exact (hc.2 rfl (by decide)).2 (by decide)

/-- C7: `set_identity` and `set_secret` fail with `InvalidArgument` on a
null or empty buffer; on every non-empty buffer they succeed and the
stored identity/secret equals the input bytes exactly (the C reallocates
and copies, so the stored bytes are independent of the caller's buffer;
here the copy is by value). -/
theorem s2n_psk_set_identity_secret_spec (psk : s2n_psk) (bytes : List Nat) :
    s2n_psk_set_identity psk none = .error .invalidArgument ∧
    s2n_psk_set_secret psk none = .error .invalidArgument ∧
    s2n_psk_set_identity psk (some []) = .error .invalidArgument ∧
    s2n_psk_set_secret psk (some []) = .error .invalidArgument ∧
    (bytes ≠ [] →
      s2n_psk_set_identity psk (some bytes) = .ok { psk with identity := bytes } ∧
      s2n_psk_set_secret psk (some bytes) = .ok { psk with secret := bytes }) := by
  refine ⟨rfl, rfl, rfl, rfl, ?_⟩
  intro h
  constructor
  · unfold s2n_psk_set_identity
    dsimp only
    rw [if_neg (by simpa using h)]
  · unfold s2n_psk_set_secret
    dsimp only
    rw [if_neg (by simpa using h)]

/-- Witness for C7 at a concrete buffer: setting identity and secret to
`[10, 20, 30]` stores exactly those bytes. -/
theorem s2n_psk_set_identity_secret_spec_witness :
    s2n_psk_set_identity psk_a (some [10, 20, 30]) =
      .ok { psk_a with identity := [10, 20, 30] } ∧
    s2n_psk_set_secret psk_a (some [10, 20, 30]) =
      .ok { psk_a with secret := [10, 20, 30] } :=
  (s2n_psk_set_identity_secret_spec psk_a [10, 20, 30]).2.2.2.2 (by decide)

/-- C2: the binder comparison is constant time in the cost model: for all
pairs of equal-length expected/candidate binders, the number of byte
comparisons the xor-accumulate loop executes is the common length,
independent of the position of the first differing byte. -/
theorem s2n_tls13_mac_verify_constant_time (e1 c1 e2 c2 : List Nat)
    (h1 : e1.length = c1.length) (h2 : e2.length = c2.length)
    (h12 : e1.length = e2.length) :
    s2n_constant_time_equals_cost e1 c1 = s2n_constant_time_equals_cost e2 c2 ∧
    s2n_constant_time_equals_cost e1 c1 = e1.length := by
  rw [s2n_constant_time_equals_cost_eq, s2n_constant_time_equals_cost_eq]
  constructor
  · omega
  · omega

/-- Witness for C2 at concrete binders: a pair differing at the first byte
and a pair differing at the last byte take the same number of steps. -/
theorem s2n_tls13_mac_verify_constant_time_witness :
    s2n_constant_time_equals_cost [0, 0] [1, 0] =
      s2n_constant_time_equals_cost [0, 0] [0, 1] ∧
    s2n_constant_time_equals_cost [0, 0] [1, 0] = 2 := by
  have h := s2n_tls13_mac_verify_constant_time [0, 0] [1, 0] [0, 0] [0, 1] rfl rfl rfl
  exact ⟨h.1, h.2⟩

/-- C6: `s2n_psk_calculate_binder` fails with `SizeMismatch` unless the
binder hash and the output buffer are exactly `N` bytes, where `N` is the
digest size of the PSK's HMAC algorithm; on success the produced binder is
exactly `N` bytes, for each of the three supported algorithms (digest
sizes 28, 32 and 48; 32 for SHA256). -/
theorem s2n_psk_calculate_binder_sizes (x : tls13_crypto) (psk : s2n_psk)
    (binder_hash : List Nat) (output_size : Nat) (hx : x.good) :
    (binder_hash.length ≠ s2n_hmac_digest_size psk.hmac_alg →
      s2n_psk_calculate_binder x psk binder_hash output_size =
        .error .sizeMismatch) ∧
    (output_size ≠ s2n_hmac_digest_size psk.hmac_alg →
      s2n_psk_calculate_binder x psk binder_hash output_size =
        .error .sizeMismatch) ∧
    (∀ binder psk1,
      s2n_psk_calculate_binder x psk binder_hash output_size = .ok (binder, psk1) →
      binder.length = s2n_hmac_digest_size psk.hmac_alg ∧
      binder_hash.length = s2n_hmac_digest_size psk.hmac_alg ∧
      output_size = s2n_hmac_digest_size psk.hmac_alg) ∧
    s2n_hmac_digest_size .sha224 = 28 ∧
    s2n_hmac_digest_size .sha256 = 32 ∧
    s2n_hmac_digest_size .sha384 = 48 := by
  refine ⟨?_, ?_, ?_, rfl, rfl, rfl⟩
  · intro hne
    unfold s2n_psk_calculate_binder
    dsimp only
    rw [if_neg hne]
  · intro hne
    unfold s2n_psk_calculate_binder
    dsimp only
    by_cases hbh : binder_hash.length = s2n_hmac_digest_size psk.hmac_alg
    · rw [if_pos hbh, if_neg hne]
    · rw [if_neg hbh]
  · intro binder psk1 hok
    unfold s2n_psk_calculate_binder at hok
    dsimp only at hok
    by_cases hbh : binder_hash.length = s2n_hmac_digest_size psk.hmac_alg
    · by_cases hos : output_size = s2n_hmac_digest_size psk.hmac_alg
      · rw [if_pos hbh, if_pos hos] at hok
        injection hok with hpair
        injection hpair with hb hp
        refine ⟨?_, hbh, hos⟩
        rw [← hb]
        exact hx.2 _ _ _
      · rw [if_pos hbh, if_neg hos] at hok
        exact absurd hok (by simp)
    · rw [if_neg hbh] at hok
      exact absurd hok (by simp)

/-- Concrete instantiation of the external crypto contract used by
witnesses: every primitive returns a digest-sized constant list. -/
def zeros_crypto : tls13_crypto :=
  { hash := fun alg _ => List.replicate (s2n_hmac_digest_size alg) 0
    extract_early := fun alg _ => List.replicate (s2n_hmac_digest_size alg) 0
    derive_binder_key := fun alg _ _ => List.replicate (s2n_hmac_digest_size alg) 0
    derive_finished_key := fun alg _ => List.replicate (s2n_hmac_digest_size alg) 0
    hkdf_extract := fun alg _ _ => List.replicate (s2n_hmac_digest_size alg) 1 }

theorem zeros_crypto_good : zeros_crypto.good :=
  ⟨fun alg msg => by simp [zeros_crypto],
   fun alg key msg => by simp [zeros_crypto]⟩

/-- Witness for C6 at concrete inputs: a 31-byte hash is rejected for a
SHA256 PSK, whose digest size is 32. -/
theorem s2n_psk_calculate_binder_sizes_witness :
    s2n_psk_calculate_binder zeros_crypto psk_a (List.replicate 31 0) 32 =
      .error .sizeMismatch ∧
    s2n_hmac_digest_size s2n_hmac_algorithm.sha256 = 32 := by
  have h := s2n_psk_calculate_binder_sizes zeros_crypto psk_a
    (List.replicate 31 0) 32 zeros_crypto_good
  exact ⟨h.1 (by decide), h.2.2.2.2.1⟩

theorem flip_byte_bit_ne (l : List Nat) (i : Nat) (h : i < 8 * l.length) :
    flip_byte_bit l i ≠ l := by
  intro heq
  have hk : i / 8 < l.length := by omega
  have hq := congrArg (fun t : List Nat => t[i / 8]?) heq
  unfold flip_byte_bit at hq
  dsimp only at hq
  rw [List.getElem?_set_self hk, List.getElem?_eq_getElem hk] at hq
  have hval : l.getD (i / 8) 0 ^^^ 1 <<< (i % 8) = l[i / 8] := Option.some.inj hq
  rw [List.getD_eq_getElem l 0 hk] at hval
  have hm : 1 <<< (i % 8) = 0 := by
    calc 1 <<< (i % 8) = l[i / 8] ^^^ (l[i / 8] ^^^ 1 <<< (i % 8)) :=
          (Nat.xor_cancel_left _ _).symm
      _ = l[i / 8] ^^^ l[i / 8] := by rw [hval]
      _ = 0 := Nat.xor_self _
  rw [Nat.one_shiftLeft] at hm
  exact absurd hm (Nat.pos_iff_ne_zero.mp (Nat.pos_pow_of_pos _ (by omega)))

/-- The binder that the verification path recomputes from the live
connection state: the composition of `s2n_psk_calculate_binder_hash` and
`s2n_psk_calculate_binder` (a statement-level abbreviation, not a separate
C function). -/
def s2n_expected_binder (x : tls13_crypto) (conn : s2n_connection)
    (psk : s2n_psk) (hello : List Nat) : List Nat :=
  x.hkdf_extract psk.hmac_alg
    (x.derive_finished_key psk.hmac_alg
      (x.derive_binder_key psk.hmac_alg psk.type
        (if psk.early_secret.length = s2n_hmac_digest_size psk.hmac_alg
         then psk.early_secret
         else x.extract_early psk.hmac_alg psk.secret)))
    (x.hash psk.hmac_alg (conn.transcript ++ hello))

theorem s2n_psk_verify_binder_characterization (x : tls13_crypto)
    (conn : s2n_connection) (psk : s2n_psk) (hello : List Nat) (hx : x.good)
    (cand : List Nat) :
    s2n_psk_verify_binder x conn psk hello cand =
      if cand.length = s2n_hmac_digest_size psk.hmac_alg then
        (if s2n_expected_binder x conn psk hello = cand then Except.ok ()
         else Except.error S2nErr.badMessage)
      else Except.error S2nErr.sizeMismatch := by
  obtain ⟨hhash, hhkdf⟩ := hx
  by_cases hc : cand.length = s2n_hmac_digest_size psk.hmac_alg
  · rw [if_pos hc]
    unfold s2n_psk_verify_binder s2n_psk_calculate_binder_hash
      s2n_psk_calculate_binder s2n_tls13_mac_verify s2n_expected_binder
    dsimp only
    rw [if_pos hc, if_pos rfl]
    dsimp only
    rw [if_pos (hhash psk.hmac_alg (conn.transcript ++ hello)), if_pos rfl]
    dsimp only
    simp only [s2n_constant_time_equals_iff]
  · rw [if_neg hc]
    unfold s2n_psk_verify_binder
    dsimp only
    rw [if_neg hc]

/-- C1 (amended): for every PSK with a supported HMAC algorithm and every
partial ClientHello, `s2n_psk_verify_binder` succeeds exactly when the
candidate binder equals the binder that `s2n_psk_calculate_binder`
produces for the recomputed binder hash; verifying that computed binder
succeeds, and flipping any single bit of the candidate makes verification
fail with `BadMessage` (the spec's `BadMessage` / `BinderMismatch`). A
candidate of the wrong length fails the `eq_check` size guard with
`SizeMismatch` instead (the correction to the claim). -/
theorem s2n_psk_verify_binder_exact_match (x : tls13_crypto)
    (conn : s2n_connection) (psk : s2n_psk) (hello : List Nat) (hx : x.good) :
    ∃ binder_hash expected psk1,
      s2n_psk_calculate_binder_hash x conn psk.hmac_alg hello
          (s2n_hmac_digest_size psk.hmac_alg) = .ok binder_hash ∧
      s2n_psk_calculate_binder x psk binder_hash
          (s2n_hmac_digest_size psk.hmac_alg) = .ok (expected, psk1) ∧
      s2n_psk_verify_binder x conn psk hello expected = .ok () ∧
      (∀ cand,
        (s2n_psk_verify_binder x conn psk hello cand = .ok ()) ↔ cand = expected) ∧
      (∀ i, i < 8 * s2n_hmac_digest_size psk.hmac_alg →
        s2n_psk_verify_binder x conn psk hello (flip_byte_bit expected i) =
          .error .badMessage) ∧
      (∀ cand, cand.length ≠ s2n_hmac_digest_size psk.hmac_alg →
        s2n_psk_verify_binder x conn psk hello cand = .error .sizeMismatch) := by
  have hchar := s2n_psk_verify_binder_characterization x conn psk hello hx
  obtain ⟨hhash, hhkdf⟩ := hx
  have hexplen : (s2n_expected_binder x conn psk hello).length =
      s2n_hmac_digest_size psk.hmac_alg := by
    unfold s2n_expected_binder
    exact hhkdf _ _ _
  refine ⟨x.hash psk.hmac_alg (conn.transcript ++ hello),
    s2n_expected_binder x conn psk hello,
    { psk with early_secret :=
        if psk.early_secret.length = s2n_hmac_digest_size psk.hmac_alg
        then psk.early_secret
        else x.extract_early psk.hmac_alg psk.secret },
    ?_, ?_, ?_, ?_, ?_, ?_⟩
  · unfold s2n_psk_calculate_binder_hash
    rw [if_pos rfl]
  · unfold s2n_psk_calculate_binder s2n_expected_binder
    dsimp only
    rw [if_pos (hhash _ _), if_pos rfl]
  · rw [hchar]
    rw [if_pos hexplen, if_pos rfl]
  · intro cand
    rw [hchar cand]
    constructor
    · intro hok
      by_cases hc : cand.length = s2n_hmac_digest_size psk.hmac_alg
      · rw [if_pos hc] at hok
        by_cases he : s2n_expected_binder x conn psk hello = cand
        · exact he.symm
        · rw [if_neg he] at hok
          exact absurd hok (by simp)
      · rw [if_neg hc] at hok
        exact absurd hok (by simp)
    · rintro rfl
      rw [if_pos hexplen, if_pos rfl]
  · intro i hi
    rw [hchar]
    have hlen : (flip_byte_bit (s2n_expected_binder x conn psk hello) i).length =
        s2n_hmac_digest_size psk.hmac_alg := by
      unfold flip_byte_bit
      rw [List.length_set]
      exact hexplen
    rw [if_pos hlen]
    have hne : s2n_expected_binder x conn psk hello ≠
        flip_byte_bit (s2n_expected_binder x conn psk hello) i :=
      fun habs =>
        flip_byte_bit_ne (s2n_expected_binder x conn psk hello) i
          (by rw [hexplen]; exact hi) habs.symm
    rw [if_neg hne]
  · intro cand hc
    rw [hchar cand, if_neg hc]

/-- Witness for C1 at concrete inputs: under the concrete crypto
instantiation the expected binder for `psk_a` is the all-ones 32-byte
list; verifying it succeeds and verifying it with its first bit flipped
fails with `BadMessage`. -/
theorem s2n_psk_verify_binder_exact_match_witness :
    s2n_psk_verify_binder zeros_crypto conn_srv psk_a [] (List.replicate 32 1) =
      .ok () ∧
    s2n_psk_verify_binder zeros_crypto conn_srv psk_a []
      (flip_byte_bit (List.replicate 32 1) 0) = .error .badMessage := by
  obtain ⟨bh, expected, psk1, h1, h2, h3, h4, h5, h6⟩ :=
    s2n_psk_verify_binder_exact_match zeros_crypto conn_srv psk_a []
      zeros_crypto_good
  have hbh : bh = List.replicate 32 0 := by
    have hcomp : s2n_psk_calculate_binder_hash zeros_crypto conn_srv
        psk_a.hmac_alg [] (s2n_hmac_digest_size psk_a.hmac_alg) =
          .ok (List.replicate 32 0) := by decide
    exact (Except.ok.inj (hcomp.symm.trans h1)).symm
  subst hbh
  have hexp : expected = List.replicate 32 1 := by
    have hcomp : s2n_psk_calculate_binder zeros_crypto psk_a
        (List.replicate 32 0) (s2n_hmac_digest_size psk_a.hmac_alg) =
          .ok (List.replicate 32 1,
            { psk_a with early_secret := List.replicate 32 0 }) := by decide
    have hpair := Except.ok.inj (hcomp.symm.trans h2)
    injection hpair with he hp
    exact he.symm
  subst hexp
  exact ⟨h3, h5 0 (by decide)⟩

/-- Counterexample for C1 as stated: a candidate binder of the wrong
length (33 bytes for a SHA256 PSK) makes verification fail with
`SizeMismatch` — the `eq_check` size guard — not with `BadMessage` or
`BinderMismatch` as the claim asserts for length changes. -/
theorem s2n_psk_verify_binder_length_error_cex :
    s2n_psk_verify_binder zeros_crypto conn_srv psk_a [] (List.replicate 33 0) =
      .error .sizeMismatch ∧
    S2nErr.sizeMismatch ≠ S2nErr.badMessage ∧
    S2nErr.sizeMismatch ≠ S2nErr.binderMismatch := by
  refine ⟨by decide, by decide, by decide⟩

/-- C8: `next` on a region with no bytes remaining fails `OutOfData` (and
leaves the cursor untouched); if bytes remain but the 2-byte identity
length cannot be read, is zero, or (plus the 4-byte ticket age) exceeds
the remaining bytes, `next` fails `BadMessage`; otherwise `next` returns a
borrowed view of exactly the declared identity bytes and advances past the
4-byte obfuscated ticket age without validating its value. -/
theorem s2n_offered_psk_list_next_spec (psk_list : s2n_offered_psk_list)
    (psk : s2n_offered_psk)
    (hwf : psk_list.wire_data.write_cursor ≤ psk_list.wire_data.blob.length) :
    (s2n_stuffer_data_available psk_list.wire_data = 0 →
      s2n_offered_psk_list_next psk_list psk =
        (.error .outOfData, psk_list, { identity := [] })) ∧
    (s2n_stuffer_data_available psk_list.wire_data = 1 →
      (s2n_offered_psk_list_next psk_list psk).1 = .error .badMessage) ∧
    (∀ b0 b1 rest,
      psk_list.wire_data.blob.drop psk_list.wire_data.read_cursor =
        b0 :: b1 :: rest →
      2 ≤ s2n_stuffer_data_available psk_list.wire_data →
      ((256 * b0 + b1 = 0 →
        (s2n_offered_psk_list_next psk_list psk).1 = .error .badMessage) ∧
       (0 < 256 * b0 + b1 →
        s2n_stuffer_data_available psk_list.wire_data < 2 + (256 * b0 + b1) + 4 →
        (s2n_offered_psk_list_next psk_list psk).1 = .error .badMessage) ∧
       (0 < 256 * b0 + b1 →
        2 + (256 * b0 + b1) + 4 ≤ s2n_stuffer_data_available psk_list.wire_data →
        s2n_offered_psk_list_next psk_list psk =
          (.ok (),
            { wire_data := { psk_list.wire_data with
                read_cursor :=
                  psk_list.wire_data.read_cursor + 2 + (256 * b0 + b1) + 4 } },
            { identity := rest.take (256 * b0 + b1) }) ∧
        (rest.take (256 * b0 + b1)).length = 256 * b0 + b1))) := by
  refine ⟨?_, ?_, ?_⟩
  · intro h
    unfold s2n_offered_psk_list_next s2n_offered_psk_list_has_next
    rw [h]
    simp
  · intro h
    unfold s2n_offered_psk_list_next s2n_offered_psk_list_has_next
      s2n_offered_psk_list_read_next s2n_stuffer_read_uint16
    rw [h]
    simp
  · intro b0 b1 rest hdrop h2
    have hnext_true : s2n_offered_psk_list_has_next psk_list = true := by
      unfold s2n_offered_psk_list_has_next
      simp only [decide_eq_true_eq]
      omega
    have hb0 : psk_list.wire_data.blob[psk_list.wire_data.read_cursor]? = some b0 := by
      have hx := List.getElem?_drop psk_list.wire_data.blob
        psk_list.wire_data.read_cursor 0
      rw [hdrop] at hx
      simpa using hx.symm
    have hb1 : psk_list.wire_data.blob[psk_list.wire_data.read_cursor + 1]? =
        some b1 := by
      have hx := List.getElem?_drop psk_list.wire_data.blob
        psk_list.wire_data.read_cursor 1
      rw [hdrop] at hx
      simpa using hx.symm
    have hrest : psk_list.wire_data.blob.drop
        (psk_list.wire_data.read_cursor + 2) = rest := by
      rw [← List.drop_drop 2 psk_list.wire_data.read_cursor, hdrop]
      rfl
    have hread : s2n_stuffer_read_uint16 psk_list.wire_data =
        some (256 * b0 + b1,
          s2n_stuffer.mk psk_list.wire_data.blob
            (psk_list.wire_data.read_cursor + 2) psk_list.wire_data.write_cursor) := by
      unfold s2n_stuffer_read_uint16
      rw [if_pos h2, List.getD_eq_getElem?_getD, List.getD_eq_getElem?_getD,
        hb0, hb1]
      rfl
    have hrestlen : psk_list.wire_data.blob.length =
        psk_list.wire_data.read_cursor + 2 + rest.length := by
      have hx := congrArg List.length hdrop
      rw [List.length_drop] at hx
      have hrc : psk_list.wire_data.read_cursor ≤ psk_list.wire_data.blob.length := by
        unfold s2n_stuffer_data_available at h2
        omega
      simp only [List.length_cons] at hx
      omega
    refine ⟨?_, ?_, ?_⟩
    · intro hL0
      unfold s2n_offered_psk_list_next s2n_offered_psk_list_read_next
      rw [hnext_true, hread]
      dsimp only
      rw [if_pos hL0]
      rfl
    · intro hLpos hshort
      unfold s2n_stuffer_data_available at hshort
      by_cases hfits : 256 * b0 + b1 ≤
          psk_list.wire_data.write_cursor - (psk_list.wire_data.read_cursor + 2)
      · have hraw : s2n_stuffer_raw_read
            (s2n_stuffer.mk psk_list.wire_data.blob
              (psk_list.wire_data.read_cursor + 2) psk_list.wire_data.write_cursor) (256 * b0 + b1) =
            some ((psk_list.wire_data.blob.drop
                (psk_list.wire_data.read_cursor + 2)).take (256 * b0 + b1),
              s2n_stuffer.mk psk_list.wire_data.blob
            (psk_list.wire_data.read_cursor + 2 + (256 * b0 + b1)) psk_list.wire_data.write_cursor) := by
          unfold s2n_stuffer_raw_read s2n_stuffer_data_available
          dsimp only
          rw [if_pos hfits]
        have hskip : s2n_stuffer_skip_read
            (s2n_stuffer.mk psk_list.wire_data.blob
              (psk_list.wire_data.read_cursor + 2 + (256 * b0 + b1)) psk_list.wire_data.write_cursor) 4 = none := by
          unfold s2n_stuffer_skip_read s2n_stuffer_data_available
          dsimp only
          rw [if_neg (by omega)]
        have hL0 : ¬ 256 * b0 + b1 = 0 := by omega
        simp [s2n_offered_psk_list_next, s2n_offered_psk_list_read_next,
          hnext_true, hread, hL0, hraw, hskip]
      · have hraw : s2n_stuffer_raw_read
            (s2n_stuffer.mk psk_list.wire_data.blob
              (psk_list.wire_data.read_cursor + 2) psk_list.wire_data.write_cursor) (256 * b0 + b1) =
            none := by
          unfold s2n_stuffer_raw_read s2n_stuffer_data_available
          dsimp only
          rw [if_neg (by omega)]
        have hL0 : ¬ 256 * b0 + b1 = 0 := by omega
        simp [s2n_offered_psk_list_next, s2n_offered_psk_list_read_next,
          hnext_true, hread, hL0, hraw]
    · intro hLpos hfit
      unfold s2n_stuffer_data_available at hfit
      have hfits : 256 * b0 + b1 ≤
          psk_list.wire_data.write_cursor - (psk_list.wire_data.read_cursor + 2) := by
        omega
      have hraw : s2n_stuffer_raw_read
          (s2n_stuffer.mk psk_list.wire_data.blob
            (psk_list.wire_data.read_cursor + 2) psk_list.wire_data.write_cursor) (256 * b0 + b1) =
          some ((psk_list.wire_data.blob.drop
              (psk_list.wire_data.read_cursor + 2)).take (256 * b0 + b1),
            s2n_stuffer.mk psk_list.wire_data.blob
            (psk_list.wire_data.read_cursor + 2 + (256 * b0 + b1)) psk_list.wire_data.write_cursor) := by
        unfold s2n_stuffer_raw_read s2n_stuffer_data_available
        dsimp only
        rw [if_pos hfits]
      have hskip : s2n_stuffer_skip_read
          (s2n_stuffer.mk psk_list.wire_data.blob
            (psk_list.wire_data.read_cursor + 2 + (256 * b0 + b1)) psk_list.wire_data.write_cursor) 4 =
          some (s2n_stuffer.mk psk_list.wire_data.blob
            (psk_list.wire_data.read_cursor + 2 + (256 * b0 + b1) + 4) psk_list.wire_data.write_cursor) := by
        unfold s2n_stuffer_skip_read s2n_stuffer_data_available
        dsimp only
        rw [if_pos (by omega)]
      constructor
      · have hL0 : ¬ 256 * b0 + b1 = 0 := by omega
        simp [s2n_offered_psk_list_next, s2n_offered_psk_list_read_next,
          hnext_true, hread, hL0, hraw, hskip, hrest]
      · rw [List.length_take]
        omega

/-- Empty wire region used by witnesses. -/
def opl_empty : s2n_offered_psk_list :=
  { wire_data := { blob := [], read_cursor := 0, write_cursor := 0 } }

/-- Wire region holding one offered-PSK entry (identity length 3, identity
bytes 10, 11, 12, then a nonzero obfuscated ticket age), used by
witnesses. -/
def opl_one : s2n_offered_psk_list :=
  { wire_data :=
      { blob := [0, 3, 10, 11, 12, 9, 9, 9, 9]
        read_cursor := 0
        write_cursor := 9 } }

/-- Witness for C8 at concrete regions: `next` on the empty region fails
`OutOfData` and zeroes the output; `next` on a well-formed one-entry
region returns the three declared identity bytes and consumes the whole
entry, ticket age included. -/
theorem s2n_offered_psk_list_next_spec_witness :
    s2n_offered_psk_list_next opl_empty { identity := [7] } =
      (.error .outOfData, opl_empty, { identity := [] }) ∧
    s2n_offered_psk_list_next opl_one { identity := [] } =
      (.ok (),
        { wire_data :=
            { blob := [0, 3, 10, 11, 12, 9, 9, 9, 9]
              read_cursor := 9
              write_cursor := 9 } },
        { identity := [10, 11, 12] }) := by
  have h1 := s2n_offered_psk_list_next_spec opl_empty { identity := [7] }
    (by decide)
  have h2 := s2n_offered_psk_list_next_spec opl_one { identity := [] }
    (by decide)
  refine ⟨h1.1 (by decide), ?_⟩
  have h3 := (h2.2.2 0 3 [10, 11, 12, 9, 9, 9, 9] (by decide)
    (by decide)).2.2 (by decide) (by decide)
  exact h3.1.trans (by decide)

/-- C9: `get_index i` works on a private reset copy of the cursor: it
returns exactly the result and output view of `i + 1` sequential `next`
calls from a freshly reset cursor, the caller's own cursor position is
unchanged, and the outcome does not depend on where the caller's cursor
currently stands. -/
theorem s2n_offered_psk_list_get_index_spec (psk_list : s2n_offered_psk_list)
    (psk_index : Nat) (psk : s2n_offered_psk) :
    (s2n_offered_psk_list_get_index psk_list psk_index psk).2.1 = psk_list ∧
    (s2n_offered_psk_list_get_index psk_list psk_index psk).1 =
      (s2n_offered_psk_list_next_loop (psk_index + 1)
        (s2n_offered_psk_list_reset psk_list) psk).1 ∧
    (s2n_offered_psk_list_get_index psk_list psk_index psk).2.2 =
      (s2n_offered_psk_list_next_loop (psk_index + 1)
        (s2n_offered_psk_list_reset psk_list) psk).2.2 ∧
    (∀ cursor : Nat,
      (s2n_offered_psk_list_get_index
        { wire_data := { psk_list.wire_data with read_cursor := cursor } }
        psk_index psk).1 =
        (s2n_offered_psk_list_get_index psk_list psk_index psk).1 ∧
      (s2n_offered_psk_list_get_index
        { wire_data := { psk_list.wire_data with read_cursor := cursor } }
        psk_index psk).2.2 =
        (s2n_offered_psk_list_get_index psk_list psk_index psk).2.2) :=
  ⟨rfl, rfl, rfl, fun _ => ⟨rfl, rfl⟩⟩

/-- C10: `next` first overwrites the output view with the all-zero value,
so on every failure path (OutOfData or BadMessage) the output's identity
is the zero (null pointer, zero size) borrowed range rather than a stale
range from an earlier call. -/
theorem s2n_offered_psk_list_next_zeroes_output
    (psk_list : s2n_offered_psk_list) (psk : s2n_offered_psk) (err : S2nErr)
    (h : (s2n_offered_psk_list_next psk_list psk).1 = .error err) :
    (s2n_offered_psk_list_next psk_list psk).2.2 = { identity := [] } := by
  have hzero : ∀ (lst : s2n_offered_psk_list) (p : s2n_offered_psk),
      (s2n_offered_psk_list_read_next lst p).1 = false →
      (s2n_offered_psk_list_read_next lst p).2.2 = p := by
    intro lst p
    unfold s2n_offered_psk_list_read_next
    repeat' split
    all_goals intro hf
    all_goals first | rfl | simp_all
  unfold s2n_offered_psk_list_next at h ⊢
  by_cases hn : s2n_offered_psk_list_has_next psk_list = true
  · simp only [hn, if_true] at h ⊢
    rcases hr : s2n_offered_psk_list_read_next psk_list { identity := [] }
      with ⟨flag, lst2, p2⟩
    cases flag
    · have hz := hzero psk_list { identity := [] } (by rw [hr])
      rw [hr] at hz
      exact hz
    · rw [hr] at h
      exact Except.noConfusion h
  · rw [if_neg hn] at h ⊢

/-- Witness for C10 at a concrete input: `next` on the empty region with a
stale nonzero view in the output structure zeroes it. -/
theorem s2n_offered_psk_list_next_zeroes_output_witness :
    (s2n_offered_psk_list_next opl_empty { identity := [7] }).2.2 =
      { identity := [] } :=
  s2n_offered_psk_list_next_zeroes_output opl_empty { identity := [7] }
    S2nErr.outOfData (by decide)
